import Mathlib

/-!
Verification development for the Radiance panel-analytics server
(`src/server.js`).  The file shallowly embeds the SQL/JS computations of the
metric endpoints as Lean functions over an explicit list of transaction lines
and proves or refutes the frozen claims about them.

`server.js` contains two concatenated iterations of the server: v2.1.0
(lines 1-1847) and v2.2.0 "filter contract" (lines 1849-2934).  The v2.2.0
endpoints are embedded as the current code; the v2.1.0 `/api/deck/commerce`
loyalty section is embedded separately where a claim cites it.

Modelling conventions:
* SQL `numeric` values are `ℚ`; `ROUND(x, 2)` (half away from zero) and the
  JS `Math.round(x*100)/100` (half up) are embedded exactly on `ℚ`
  (binary-float artefacts of JS numbers are not modelled).
* A `Line` is one row of `analytics.radiance_base_v1` LEFT JOINed with
  `analytics.radiance_invoice_reconcile_v1` on `cufe`; `reconcile_ok = none`
  means no reconciliation record.  Only rows with `user_id IS NOT NULL` are
  modelled, since every embedded query filters on that.
* Dates are (month index, day in month) pairs ordered lexicographically;
  `DATE_TRUNC('month', d)` is the first component.
* The interpolated grouping column `${group_by_col}` / `${cat_col}` is a
  selector parameter `gcol : Line → Option String`; the interpolated
  `${peerScopeWhere}` clause is a predicate parameter `peerWhere`
  (`fun _ => true` is peer_scope `all`, the default).
* SQL `ORDER BY` clauses that only permute the produced rows are embedded
  with an insertion sort where the row limit depends on them, and as the
  grouping order otherwise; all claim statements are order-insensitive.
-/

namespace Radiance

/-- Calendar date: `ym` is a linear month index, `d` the day within the
month.  `DATE_TRUNC('month', ·)` keeps `ym`. -/
structure CalDate where
  ym : Nat
  d : Nat
deriving DecidableEq, Repr

/-- SQL `a <= b` on dates (lexicographic). -/
def CalDate.le (a b : CalDate) : Bool := a.ym < b.ym || (a.ym == b.ym && a.d ≤ b.d)

/-- SQL `a < b` on dates (lexicographic). -/
def CalDate.lt (a b : CalDate) : Bool := a.ym < b.ym || (a.ym == b.ym && a.d < b.d)

/-- One transaction line of `analytics.radiance_base_v1`, LEFT JOINed with
its reconciliation record (`reconcile_ok = none` ⇔ no matching record).
`cat_l1 … cat_l4` are the four category-path columns of the active domain,
`brand` is `product_brand`, and `line_total` is the (already
`COALESCE(line_total, 0)`-ed) monetary amount. -/
structure Line where
  user_id : Nat
  cufe : Nat
  date : CalDate
  issuer_ruc : String
  cat_l1 : Option String
  cat_l2 : Option String
  cat_l3 : Option String
  cat_l4 : Option String
  brand : Option String
  line_total : ℚ
  reconcile_ok : Option Bool
deriving DecidableEq, Repr

/-- Sum of a rational measure over a list of rows (SQL `SUM`). -/
def sumBy (l : List α) (f : α → ℚ) : ℚ := (l.map f).sum

/-- Sum of a natural-number measure over a list of rows. -/
def natSum (l : List Nat) : Nat := l.sum

/-- SQL `COUNT(DISTINCT f(·))` over a list of rows. -/
def distinctCount [DecidableEq β] (l : List α) (f : α → β) : Nat :=
  ((l.map f).dedup).length

/-- The reconciliation filter predicate of every embedded query:
`($n::boolean IS NULL OR COALESCE(r.reconcile_ok, false) = $n)`. -/
def reconcilePass (filter : Option Bool) (rec : Option Bool) : Bool :=
  match filter with
  | none => true
  | some b => rec.getD false == b

/-- The window predicate `invoice_date >= $start AND invoice_date < $end`
(end-exclusive). -/
def inWindow (s e : CalDate) (l : Line) : Bool :=
  CalDate.le s l.date && CalDate.lt l.date e

/-- One conjunct of `buildCategoryPathSQL`:
`($n::text IS NULL OR col = $n)`; a NULL column never equals a non-null
parameter. -/
def pathEq (p : Option String) (col : Option String) : Bool :=
  match p with
  | none => true
  | some v => col == some v

/-- The hierarchical category-path filter (`category_l1 … category_l4`
query parameters). -/
structure PathFilter where
  l1 : Option String
  l2 : Option String
  l3 : Option String
  l4 : Option String
deriving DecidableEq, Repr

/-- `buildCategoryPathSQL` applied to a line. -/
def pathPass (p : PathFilter) (l : Line) : Bool :=
  pathEq p.l1 l.cat_l1 && pathEq p.l2 l.cat_l2 && pathEq p.l3 l.cat_l3 &&
    pathEq p.l4 l.cat_l4

/-- `COALESCE(col, 'UNKNOWN')` — the only category normalization the SQL
performs (NULL only; blank strings are kept verbatim). -/
def normCat (v : Option String) : String := v.getD "UNKNOWN"

/-- SQL `TRIM(s)`: strip leading and trailing space characters. -/
def sqlTrim (s : String) : String :=
  String.mk (((s.data.dropWhile (fun c => c == ' ')).reverse.dropWhile
    (fun c => c == ' ')).reverse)

/-- `COALESCE(NULLIF(TRIM(product_brand), ''), 'UNKNOWN')` — the brand
normalization of the loyalty query: NULL and blank both become UNKNOWN. -/
def brandNorm (v : Option String) : String :=
  match v with
  | none => "UNKNOWN"
  | some s => if sqlTrim s = "" then "UNKNOWN" else sqlTrim s

/-- The JS helper `normDim` (v2.2 lines 1978-1982).  It is defined in the
source but never used by any query path: category columns are normalized by
`COALESCE` alone. -/
def normDim (v : Option String) : String :=
  match v with
  | none => "UNKNOWN"
  | some s =>
    if sqlTrim s = "" ∨ (sqlTrim s).toLower = "null" then "UNKNOWN" else sqlTrim s

/-- Floor of a rational, computably (`q.num / q.den` with integer division;
equal to `⌊q⌋`). -/
def qfloor (q : ℚ) : ℤ := q.num / (q.den : ℤ)

/-- Round half up, computably (equal to Mathlib `round`, which is also the
semantics of JS `Math.round`). -/
def roundHalfUp (q : ℚ) : ℤ := qfloor (q + 1/2)

/-- SQL `ROUND(q, 2)` on `numeric`: round half away from zero to 2 decimal
places. -/
def sqlRound2 (q : ℚ) : ℚ :=
  if q < 0 then -(((roundHalfUp (-q * 100) : ℤ) : ℚ) / 100)
  else ((roundHalfUp (q * 100) : ℤ) : ℚ) / 100

/-- JS `Math.round(q * 100) / 100` (cent rounding of response amounts). -/
def jsRoundCents (q : ℚ) : ℚ := ((roundHalfUp (q * 100) : ℤ) : ℚ) / 100

/-- Insertion step for the embedded `ORDER BY` sorts. -/
def insertSortedBy (le : α → α → Bool) (x : α) : List α → List α
  | [] => [x]
  | y :: ys => if le x y then x :: y :: ys else y :: insertSortedBy le x ys

/-- Insertion sort by a boolean comparison (embeds SQL `ORDER BY`; stable,
which is a refinement of SQL's unspecified tie order). -/
def insertionSortBy (le : α → α → Bool) (l : List α) : List α :=
  l.foldr (insertSortedBy le) []

/-- A `numeric` amount with cent granularity (an integer number of cents).
Monetary `line_total` values are of this form; under it the JS cent rounding
of response amounts is the identity. -/
def centGrain (q : ℚ) : Prop := ∃ n : ℤ, q = (n : ℚ) / 100

/-- All line amounts of a database have cent granularity. -/
def centGrainDB (db : List Line) : Prop := ∀ l ∈ db, centGrain l.line_total

/-! ### Capture: `/api/sow_leakage/by_category` (v2.2 lines 2524-2595) -/

/-- Parameters of the capture endpoint after `parseFilters`. -/
structure CaptureParams where
  startDate : CalDate
  endDate : CalDate
  issuer_ruc : String
  reconcile_ok : Option Bool
  k_threshold : Nat
  path : PathFilter
deriving DecidableEq, Repr

/-- The `cohort` CTE: distinct users with a qualifying line at issuer X. -/
def captureCohort (p : CaptureParams) (db : List Line) : List Nat :=
  ((db.filter fun l =>
      inWindow p.startDate p.endDate l &&
      reconcilePass p.reconcile_ok l.reconcile_ok &&
      l.issuer_ruc == p.issuer_ruc && pathPass p.path l).map (·.user_id)).dedup

/-- The line set scanned by the `peer_spend` CTE: all in-window, filtered
lines of cohort members at any issuer passing the peer-scope clause. -/
def capturePeerLines (p : CaptureParams) (peerWhere : Line → Bool)
    (db : List Line) : List Line :=
  db.filter fun l =>
    (captureCohort p db).contains l.user_id &&
    inWindow p.startDate p.endDate l &&
    reconcilePass p.reconcile_ok l.reconcile_ok &&
    peerWhere l && pathPass p.path l

/-- One row of the `peer_spend` CTE (grouped by user, normalized category
value and issuer). -/
structure PeerSpendRow where
  user_id : Nat
  category_value : String
  issuer_ruc : String
  spend : ℚ
deriving DecidableEq, Repr

/-- The `peer_spend` CTE. -/
def capturePeerSpend (p : CaptureParams) (gcol : Line → Option String)
    (peerWhere : Line → Bool) (db : List Line) : List PeerSpendRow :=
  let ls := capturePeerLines p peerWhere db
  ((ls.map fun l => (l.user_id, normCat (gcol l), l.issuer_ruc)).dedup).map
    fun key =>
      { user_id := key.1, category_value := key.2.1, issuer_ruc := key.2.2,
        spend := sumBy
          (ls.filter fun l => (l.user_id, normCat (gcol l), l.issuer_ruc) == key)
          (·.line_total) }

/-- One row of the `grouped` CTE / of the final merged SELECT.
`sow_pct = none` models the SQL NULL produced by `NULLIF(SUM(spend), 0)`
when the market denominator is zero. -/
structure CaptureAggRow where
  category_value : String
  users : Nat
  spend_in_x_usd : ℚ
  spend_market_usd : ℚ
  leakage_usd : ℚ
  sow_pct : Option ℚ
deriving DecidableEq, Repr

/-- One output row of the `grouped` CTE for category value `c`:
distinct users, in-X and market spend, `leakage = SUM(spend) - SUM(in_x)`
and the rounded share (NULL on a zero denominator). -/
def captureGroupedRow (issuer : String) (ps : List PeerSpendRow) (c : String) :
    CaptureAggRow :=
  let grp := ps.filter fun r => r.category_value == c
  let inx := sumBy grp fun r => if r.issuer_ruc == issuer then r.spend else 0
  let mkt := sumBy grp (·.spend)
  { category_value := c,
    users := distinctCount grp (·.user_id),
    spend_in_x_usd := inx,
    spend_market_usd := mkt,
    leakage_usd := mkt - inx,
    sow_pct := if mkt = 0 then none else some (sqlRound2 (100 * inx / mkt)) }

/-- The `grouped` CTE. -/
def captureGrouped (p : CaptureParams) (gcol : Line → Option String)
    (peerWhere : Line → Bool) (db : List Line) : List CaptureAggRow :=
  let ps := capturePeerSpend p gcol peerWhere db
  ((ps.map (·.category_value)).dedup).map (captureGroupedRow p.issuer_ruc ps)

/-- The k-anonymity relabelling of the final SELECT:
`CASE WHEN users < $k THEN 'OTHER_SUPPRESSED' ELSE category_value END`
(note: no exemption for UNKNOWN). -/
def captureMergeKey (k : Nat) (r : CaptureAggRow) : String :=
  if r.users < k then "OTHER_SUPPRESSED" else r.category_value

/-- One output row of the final SELECT for merge key `c`: every measure of
the merged group is summed and the share recomputed from the summed
spends. -/
def captureMergedRow (k : Nat) (g : List CaptureAggRow) (c : String) :
    CaptureAggRow :=
  let grp := g.filter fun r => captureMergeKey k r == c
  let inx := sumBy grp (·.spend_in_x_usd)
  let mkt := sumBy grp (·.spend_market_usd)
  { category_value := c,
    users := natSum (grp.map (·.users)),
    spend_in_x_usd := inx,
    spend_market_usd := mkt,
    leakage_usd := sumBy grp (·.leakage_usd),
    sow_pct := if mkt = 0 then none else some (sqlRound2 (100 * inx / mkt)) }

/-- The final SELECT of the capture query: group `grouped` by the merge key;
ordered by in-X spend descending. -/
def captureMerged (p : CaptureParams) (gcol : Line → Option String)
    (peerWhere : Line → Bool) (db : List Line) : List CaptureAggRow :=
  let g := captureGrouped p gcol peerWhere db
  insertionSortBy (fun a b => b.spend_in_x_usd ≤ a.spend_in_x_usd)
    (((g.map (captureMergeKey p.k_threshold)).dedup).map
      (captureMergedRow p.k_threshold g))

/-- One element of the response `data` array of the capture endpoint. -/
structure CaptureOutRow where
  category_value : String
  users : Nat
  spend_in_x_usd : ℚ
  spend_market_usd : ℚ
  leakage_usd : ℚ
  sow_pct : ℚ
  is_unknown : Bool
  trust_level : Option String
deriving DecidableEq, Repr

/-- The JS response mapping of the capture endpoint: cent-round the three
amounts, turn a NULL share into 0 (`Number(null) = 0`), and tag UNKNOWN with
`trust_level = 'SUPPRESSED'`. -/
def captureData (p : CaptureParams) (gcol : Line → Option String)
    (peerWhere : Line → Bool) (db : List Line) : List CaptureOutRow :=
  (captureMerged p gcol peerWhere db).map fun r =>
    { category_value := r.category_value,
      users := r.users,
      spend_in_x_usd := jsRoundCents r.spend_in_x_usd,
      spend_market_usd := jsRoundCents r.spend_market_usd,
      leakage_usd := jsRoundCents r.leakage_usd,
      sow_pct := r.sow_pct.getD 0,
      is_unknown := r.category_value == "UNKNOWN",
      trust_level := if r.category_value == "UNKNOWN" then some "SUPPRESSED" else none }

/-- The `sow_pct` expression of `/api/kpis/summary` (v2.2 line 2426):
`CASE WHEN spend_market > 0 THEN 100.0 * ventas / spend_market ELSE 0 END`. -/
def kpisSowPct (ventas spend_market : ℚ) : ℚ :=
  if 0 < spend_market then 100 * ventas / spend_market else 0

/-! ### Retention waterfall: `/api/leakage/tree` (v2.2 lines 2650-2710) -/

/-- Parameters of the waterfall endpoint after `parseFilters`
(`category_value` is required; no path filter is supported). -/
structure WaterfallParams where
  startDate : CalDate
  endDate : CalDate
  issuer_ruc : String
  reconcile_ok : Option Bool
  category_value : String
deriving DecidableEq, Repr

/-- The WHERE clause of the `base_txn` CTE:
in-window, reconciliation-filtered lines of the selected category
(`COALESCE(cat_col, 'UNKNOWN') = $5`). -/
def waterfallLines (p : WaterfallParams) (gcol : Line → Option String)
    (db : List Line) : List Line :=
  db.filter fun l =>
    inWindow p.startDate p.endDate l &&
    reconcilePass p.reconcile_ok l.reconcile_ok &&
    normCat (gcol l) == p.category_value

/-- One row of the `base_txn` CTE (grouped by user, month and issuer):
summed line total and distinct-invoice visit count. -/
structure BaseTxnRow where
  user_id : Nat
  txn_month : Nat
  issuer_ruc : String
  line_total : ℚ
  visits : Nat
deriving DecidableEq, Repr

/-- The `base_txn` CTE. -/
def baseTxn (p : WaterfallParams) (gcol : Line → Option String)
    (db : List Line) : List BaseTxnRow :=
  let ls := waterfallLines p gcol db
  ((ls.map fun l => (l.user_id, l.date.ym, l.issuer_ruc)).dedup).map fun key =>
    let grp := ls.filter fun l => (l.user_id, l.date.ym, l.issuer_ruc) == key
    { user_id := key.1, txn_month := key.2.1, issuer_ruc := key.2.2,
      line_total := sumBy grp (·.line_total),
      visits := distinctCount grp (·.cufe) }

/-- Ascending insertion into a sorted list of months. -/
def insertAsc (n : Nat) : List Nat → List Nat
  | [] => [n]
  | m :: ms => if n ≤ m then n :: m :: ms else m :: insertAsc n ms

/-- Ascending sort (the `months` CTE's `ORDER BY txn_month`). -/
def sortAsc (l : List Nat) : List Nat := l.foldr insertAsc []

/-- The `months` CTE: distinct transaction months, ascending. -/
def monthsOf (bt : List BaseTxnRow) : List Nat :=
  sortAsc ((bt.map (·.txn_month)).dedup)

/-- The `month_pairs` CTE restricted to `next IS NOT NULL`: each month paired
with the next month present in the series (`LEAD` over the ascending order). -/
def monthPairs (ms : List Nat) : List (Nat × Nat) := ms.zip ms.tail

/-- One row of the `user_month` CTE: per user and month, visits and spend at
issuer X and total visits anywhere. -/
structure UserMonthRow where
  user_id : Nat
  txn_month : Nat
  visits_x : Nat
  spend_x : ℚ
  visits_total : Nat
deriving DecidableEq, Repr

/-- The `user_month` CTE. -/
def userMonth (issuer : String) (bt : List BaseTxnRow) : List UserMonthRow :=
  ((bt.map fun b => (b.user_id, b.txn_month)).dedup).map fun key =>
    let grp := bt.filter fun b => (b.user_id, b.txn_month) == key
    { user_id := key.1, txn_month := key.2,
      visits_x := natSum (grp.map fun b =>
        if b.issuer_ruc == issuer then b.visits else 0),
      spend_x := sumBy grp fun b =>
        if b.issuer_ruc == issuer then b.line_total else 0,
      visits_total := natSum (grp.map (·.visits)) }

/-- One row of the `transitions` CTE. -/
structure TransitionRow where
  user_id : Nat
  origin : Nat
  next : Nat
  vx_o : Nat
  sx_o : ℚ
  vx_n : Nat
  sx_n : ℚ
  vt_n : Nat
deriving DecidableEq, Repr

/-- Join against `user_month` on `(user_id, txn_month)` (a key of that CTE,
so `find?` is the join). -/
def umLookup (um : List UserMonthRow) (u m : Nat) : Option UserMonthRow :=
  um.find? fun r => r.user_id == u && r.txn_month == m

/-- The `transitions` CTE: every cohort entry (`visits_x > 0` at the origin
month) joined with the month pair whose origin it is; `COALESCE(…, 0)` for a
user absent from the next month. -/
def transitionsOf (p : WaterfallParams) (gcol : Line → Option String)
    (db : List Line) : List TransitionRow :=
  let bt := baseTxn p gcol db
  let um := userMonth p.issuer_ruc bt
  let cohort := um.filter fun r => 0 < r.visits_x
  (monthPairs (monthsOf bt)).flatMap fun pr =>
    (cohort.filter fun c => c.txn_month == pr.1).map fun c =>
      let o := umLookup um c.user_id pr.1
      let n := umLookup um c.user_id pr.2
      { user_id := c.user_id, origin := pr.1, next := pr.2,
        vx_o := (o.map (·.visits_x)).getD 0,
        sx_o := (o.map (·.spend_x)).getD 0,
        vx_n := (n.map (·.visits_x)).getD 0,
        sx_n := (n.map (·.spend_x)).getD 0,
        vt_n := (n.map (·.visits_total)).getD 0 }

/-- The six waterfall buckets. -/
inductive Bucket where
  | RETAINED
  | CATEGORY_GONE
  | REDUCED_BASKET
  | REDUCED_FREQ
  | FULL_CHURN
  | DELAYED_ONLY
deriving DecidableEq, Repr

/-- The CASE expression of the `buckets` CTE (v2.2 lines 2688-2693),
conditions in source order, first match wins, `DELAYED_ONLY` as the ELSE. -/
def classifyBucket (t : TransitionRow) : Bucket :=
  if 0 < t.vx_n ∧ t.sx_o * (9/10) ≤ t.sx_n then .RETAINED
  else if 0 < t.vt_n ∧ t.vx_n = 0 then .CATEGORY_GONE
  else if 0 < t.vx_n ∧ t.sx_n < t.sx_o * (1/2) then .REDUCED_BASKET
  else if 0 < t.vx_n ∧ t.vx_n < t.vx_o then .REDUCED_FREQ
  else if t.vt_n = 0 then .FULL_CHURN
  else .DELAYED_ONLY

/-- The fixed `bucketOrder` of the JS response assembly (v2.2 line 2700). -/
def bucketOrder : List Bucket :=
  [.RETAINED, .CATEGORY_GONE, .REDUCED_BASKET, .REDUCED_FREQ, .DELAYED_ONLY,
   .FULL_CHURN]

/-- One element of the response `waterfall` array. -/
structure WaterfallRow where
  bucket : Bucket
  users : Nat
  pct : ℚ
deriving DecidableEq, Repr

/-- The final SELECT of the waterfall query
(`COUNT(*)` per bucket, `pct = ROUND(100 * count / total, 2)` with the
window-function total) combined with the JS zero-fill for absent buckets:
a bucket with count 0 produces no SQL row and the JS supplies
`users = 0, pct = 0`, which coincides with the formula below. -/
def waterfallRowOf (ts : List TransitionRow) (b : Bucket) : WaterfallRow :=
  let cnt := ts.countP fun t => decide (classifyBucket t = b)
  { bucket := b, users := cnt,
    pct := if ts.length = 0 then 0
      else sqlRound2 (100 * (cnt : ℚ) / (ts.length : ℚ)) }

/-- The response `waterfall` array. -/
def waterfallOutput (p : WaterfallParams) (gcol : Line → Option String)
    (db : List Line) : List WaterfallRow :=
  bucketOrder.map (waterfallRowOf (transitionsOf p gcol db))

/-- Distinct users transitioning out of origin month `m` (the spec's
`cohort_size` for that month, computed from the code's `transitions` CTE). -/
def transCohortSize (p : WaterfallParams) (gcol : Line → Option String)
    (db : List Line) (m : Nat) : Nat :=
  distinctCount ((transitionsOf p gcol db).filter fun t => t.origin == m)
    (·.user_id)

/-- The spec's §4.6 rule list in the spec's order, conditions written as the
spec words them (rule 6, `DELAYED_ONLY`, is the fallback of
`specFirstMatch`). -/
def specWaterfallRules : List (Bucket × (TransitionRow → Bool)) :=
  [ (.RETAINED, fun t => decide (0 < t.vx_n) && decide ((9/10) * t.sx_o ≤ t.sx_n)),
    (.CATEGORY_GONE, fun t => decide (0 < t.vt_n) && decide (t.vx_n = 0)),
    (.REDUCED_BASKET, fun t => decide (0 < t.vx_n) && decide (t.sx_n < (1/2) * t.sx_o)),
    (.REDUCED_FREQ, fun t => decide (0 < t.vx_n) && decide (t.vx_n < t.vx_o)),
    (.FULL_CHURN, fun t => decide (t.vt_n = 0)) ]

/-- First-matching-rule evaluation, as the spec describes the waterfall. -/
def specFirstMatch : List (Bucket × (TransitionRow → Bool)) → TransitionRow → Bucket
  | [], _ => .DELAYED_ONLY
  | (b, c) :: rest, t => if c t then b else specFirstMatch rest t

/-! ### Brand loyalty: `/api/loyalty/brands` (v2.2 lines 2769-2850) -/

/-- Parameters of the loyalty endpoint (`category_value` required). -/
structure LoyaltyParams where
  startDate : CalDate
  endDate : CalDate
  issuer_ruc : String
  reconcile_ok : Option Bool
  category_value : String
  k_threshold : Nat
deriving DecidableEq, Repr

/-- One row of the loyalty `base` CTE (per user and normalized brand). -/
structure BrandSpendRow where
  user_id : Nat
  brand : String
  brand_spend : ℚ
deriving DecidableEq, Repr

/-- The WHERE clause of the loyalty `base` CTE. -/
def loyaltyLines (p : LoyaltyParams) (gcol : Line → Option String)
    (db : List Line) : List Line :=
  db.filter fun l =>
    inWindow p.startDate p.endDate l &&
    reconcilePass p.reconcile_ok l.reconcile_ok &&
    l.issuer_ruc == p.issuer_ruc &&
    normCat (gcol l) == p.category_value

/-- The loyalty `base` CTE. -/
def loyaltyBase (p : LoyaltyParams) (gcol : Line → Option String)
    (db : List Line) : List BrandSpendRow :=
  let ls := loyaltyLines p gcol db
  ((ls.map fun l => (l.user_id, brandNorm l.brand)).dedup).map fun key =>
    { user_id := key.1, brand := key.2,
      brand_spend := sumBy
        (ls.filter fun l => (l.user_id, brandNorm l.brand) == key)
        (·.line_total) }

/-- One row of the `user_cat_spend` CTE. -/
structure UserCatRow where
  user_id : Nat
  cat_spend : ℚ
deriving DecidableEq, Repr

/-- The `user_cat_spend` CTE. -/
def userCatSpend (base : List BrandSpendRow) : List UserCatRow :=
  ((base.map (·.user_id)).dedup).map fun u =>
    { user_id := u,
      cat_spend := sumBy (base.filter fun r => r.user_id == u) (·.brand_spend) }

/-- One row of the `shares` CTE; `share_pct = none` models the NULL from
`NULLIF(cat_spend, 0)`. -/
structure ShareRow where
  user_id : Nat
  brand : String
  share_pct : Option ℚ
deriving DecidableEq, Repr

/-- The `shares` CTE: rows of `base` with positive brand spend, joined with
`user_cat_spend` (a key of that CTE, so `find?` is the join). -/
def sharesOf (base : List BrandSpendRow) (ucs : List UserCatRow) :
    List ShareRow :=
  (base.filter fun r => 0 < r.brand_spend).map fun r =>
    let cs := ((ucs.find? fun u => u.user_id == r.user_id).map (·.cat_spend)).getD 0
    { user_id := r.user_id, brand := r.brand,
      share_pct := if cs = 0 then none
        else some (sqlRound2 (100 * r.brand_spend / cs)) }

/-- `share_pct >= x` with SQL NULL semantics (NULL compares false). -/
def shareGE (r : ShareRow) (x : ℚ) : Bool :=
  match r.share_pct with
  | some s => decide (x ≤ s)
  | none => false

/-- `share_pct < x` with SQL NULL semantics (NULL compares false). -/
def shareLT (r : ShareRow) (x : ℚ) : Bool :=
  match r.share_pct with
  | some s => decide (s < x)
  | none => false

/-- Ascending insertion for rationals. -/
def insertAscQ (q : ℚ) : List ℚ → List ℚ
  | [] => [q]
  | x :: xs => if q ≤ x then q :: x :: xs else x :: insertAscQ q xs

/-- Ascending sort of rationals. -/
def sortAscQ (l : List ℚ) : List ℚ := l.foldr insertAscQ []

/-- PostgreSQL `PERCENTILE_CONT(f) WITHIN GROUP (ORDER BY x)`: linear
interpolation between order statistics; NULL inputs are ignored and an empty
input yields NULL. -/
def percentileCont (f : ℚ) (l : List (Option ℚ)) : Option ℚ :=
  let xs := sortAscQ (l.filterMap id)
  if xs.isEmpty then none
  else
    let n := xs.length
    let rn := f * ((n : ℚ) - 1)
    let i := (qfloor rn).toNat
    let frac := rn - (i : ℚ)
    some (if i + 1 < n then
      xs.getD i 0 + frac * (xs.getD (i+1) 0 - xs.getD i 0)
    else xs.getD i 0)

/-- SQL `AVG` over a nullable column: NULLs ignored, NULL on empty input. -/
def avgOpt (l : List (Option ℚ)) : Option ℚ :=
  let xs := l.filterMap id
  if xs.isEmpty then none else some (xs.sum / (xs.length : ℚ))

/-- One row of the `brand_agg` CTE. -/
structure BrandAggRow where
  brand : String
  brand_buyers : Nat
  penetration_pct : Option ℚ
  p75 : Option ℚ
  loyal_users : Nat
deriving DecidableEq, Repr

/-- One row of the `brand_agg` CTE for brand `b` (shared by the loyalty
endpoint and the deck loyalty query, whose `brand_agg` CTEs are textually
identical): distinct buyers, rounded penetration over `eligible` users, the
rounded p75 of the brand's own shares, and distinct loyal users. -/
def brandAggRowOf (eligible : Nat) (sh : List ShareRow) (b : String) :
    BrandAggRow :=
  let grp := sh.filter fun r => r.brand == b
  let buyers := distinctCount grp (·.user_id)
  { brand := b, brand_buyers := buyers,
    penetration_pct := if eligible = 0 then none
      else some (sqlRound2 (100 * (buyers : ℚ) / (eligible : ℚ))),
    p75 := (percentileCont (3/4) (grp.map (·.share_pct))).map sqlRound2,
    loyal_users := distinctCount (grp.filter fun r => shareGE r 80) (·.user_id) }

/-- The `brand_agg` CTE. -/
def loyaltyBrandAgg (p : LoyaltyParams) (gcol : Line → Option String)
    (db : List Line) : List BrandAggRow :=
  let base := loyaltyBase p gcol db
  let ucs := userCatSpend base
  let sh := sharesOf base ucs
  ((sh.map (·.brand)).dedup).map (brandAggRowOf ucs.length sh)

/-- The `tiers` CTE (counts over share rows, NULL shares matching nothing). -/
structure TierCounts where
  exclusive : Nat
  loyal : Nat
  prefer : Nat
  light : Nat
deriving DecidableEq, Repr

/-- The `tiers` CTE. -/
def loyaltyTiers (sh : List ShareRow) : TierCounts :=
  { exclusive := sh.countP fun r => shareGE r 95,
    loyal := sh.countP fun r => shareGE r 80 && shareLT r 95,
    prefer := sh.countP fun r => shareGE r 50 && shareLT r 80,
    light := sh.countP fun r => shareLT r 50 }

/-- The `dist` CTE (rounded share percentiles). -/
structure ShareDistribution where
  p10 : Option ℚ
  p25 : Option ℚ
  p50 : Option ℚ
  p75 : Option ℚ
  p90 : Option ℚ
deriving DecidableEq, Repr

/-- The `dist` CTE. -/
def loyaltyDist (sh : List ShareRow) : ShareDistribution :=
  { p10 := (percentileCont (1/10) (sh.map (·.share_pct))).map sqlRound2,
    p25 := (percentileCont (1/4) (sh.map (·.share_pct))).map sqlRound2,
    p50 := (percentileCont (1/2) (sh.map (·.share_pct))).map sqlRound2,
    p75 := (percentileCont (3/4) (sh.map (·.share_pct))).map sqlRound2,
    p90 := (percentileCont (9/10) (sh.map (·.share_pct))).map sqlRound2 }

/-- The k-anonymity relabelling of the `brand_final` CTE:
`CASE WHEN brand_buyers < $k AND brand != 'UNKNOWN' THEN 'OTHER_SUPPRESSED'
ELSE brand END` (UNKNOWN is exempt here, unlike in capture). -/
def loyaltyMergeKey (k : Nat) (r : BrandAggRow) : String :=
  if r.brand_buyers < k ∧ r.brand ≠ "UNKNOWN" then "OTHER_SUPPRESSED" else r.brand

/-- One row of the `brand_final` CTE / final SELECT. -/
structure BrandFinalRow where
  brand : String
  brand_buyers : Nat
  penetration_pct : Option ℚ
  p75 : Option ℚ
  loyal_users : Nat
  loyalty_rate_pct : Option ℚ
deriving DecidableEq, Repr

/-- Sort key of the final loyalty ORDER BY:
`CASE brand WHEN 'UNKNOWN' THEN 2 WHEN 'OTHER_SUPPRESSED' THEN 3 ELSE 1 END`. -/
def loyaltyOrdClass (b : String) : Nat :=
  if b == "UNKNOWN" then 2 else if b == "OTHER_SUPPRESSED" then 3 else 1

/-- One row of the `brand_final` CTE for merge key `b`, with the final
SELECT's `loyalty_rate_pct`: buyers and loyal users are summed, the
percentage measures averaged (`ROUND(AVG(…), 2)`). -/
def loyaltyFinalRowOf (k : Nat) (agg : List BrandAggRow) (b : String) :
    BrandFinalRow :=
  let grp := agg.filter fun r => loyaltyMergeKey k r == b
  let buyers := natSum (grp.map (·.brand_buyers))
  let loyal := natSum (grp.map (·.loyal_users))
  { brand := b, brand_buyers := buyers,
    penetration_pct := (avgOpt (grp.map (·.penetration_pct))).map sqlRound2,
    p75 := (avgOpt (grp.map (·.p75))).map sqlRound2,
    loyal_users := loyal,
    loyalty_rate_pct := if buyers = 0 then none
      else some (sqlRound2 (100 * (loyal : ℚ) / (buyers : ℚ))) }

/-- The `brand_final` CTE with the final ORDER BY. -/
def loyaltyBrandFinal (p : LoyaltyParams) (gcol : Line → Option String)
    (db : List Line) : List BrandFinalRow :=
  let agg := loyaltyBrandAgg p gcol db
  insertionSortBy (fun a b =>
      loyaltyOrdClass a.brand < loyaltyOrdClass b.brand ||
      (loyaltyOrdClass a.brand == loyaltyOrdClass b.brand &&
        b.brand_buyers ≤ a.brand_buyers))
    (((agg.map (loyaltyMergeKey p.k_threshold)).dedup).map
      (loyaltyFinalRowOf p.k_threshold agg))

/-- One element of the response `data` array of the loyalty endpoint. -/
structure LoyaltyOutRow where
  brand : String
  brand_buyers : Nat
  penetration_pct : ℚ
  p75 : ℚ
  loyalty_rate_pct : ℚ
  is_unknown : Bool
  trust_level : Option String
deriving DecidableEq, Repr

/-- The JS response mapping of the loyalty endpoint (v2.2 lines 2842-2846);
there is no window-trust verdict anywhere in this endpoint — per-brand rows
are always returned and only UNKNOWN is tagged. -/
def loyaltyData (p : LoyaltyParams) (gcol : Line → Option String)
    (db : List Line) : List LoyaltyOutRow :=
  (loyaltyBrandFinal p gcol db).map fun r =>
    { brand := r.brand, brand_buyers := r.brand_buyers,
      penetration_pct := r.penetration_pct.getD 0,
      p75 := r.p75.getD 0,
      loyalty_rate_pct := r.loyalty_rate_pct.getD 0,
      is_unknown := r.brand == "UNKNOWN",
      trust_level := if r.brand == "UNKNOWN" then some "SUPPRESSED" else none }

/-! ### Deck loyalty section: `/api/deck/commerce` (v2.1 lines 1741-1795) -/

/-- v2.1 deck brand normalization: `COALESCE(product_brand, 'UNKNOWN')`
(no TRIM / NULLIF). -/
def deckBrandNorm (v : Option String) : String := v.getD "UNKNOWN"

/-- Parameters of the deck loyalty section (`category_value` is the
auto-selected top category). -/
structure DeckParams where
  startDate : CalDate
  endDate : CalDate
  issuer_ruc : String
  reconcile_ok : Option Bool
  category_value : String
  k_threshold : Nat
deriving DecidableEq, Repr

/-- The deck loyalty `base` CTE. -/
def deckLoyaltyBase (p : DeckParams) (gcol : Line → Option String)
    (db : List Line) : List BrandSpendRow :=
  let ls := db.filter fun l =>
    inWindow p.startDate p.endDate l &&
    reconcilePass p.reconcile_ok l.reconcile_ok &&
    l.issuer_ruc == p.issuer_ruc &&
    normCat (gcol l) == p.category_value
  ((ls.map fun l => (l.user_id, deckBrandNorm l.brand)).dedup).map fun key =>
    { user_id := key.1, brand := key.2,
      brand_spend := sumBy
        (ls.filter fun l => (l.user_id, deckBrandNorm l.brand) == key)
        (·.line_total) }

/-- `eligible_users` of the deck loyalty query:
`(SELECT COUNT(*) FROM user_cat_spend)`. -/
def deckEligibleUsers (p : DeckParams) (gcol : Line → Option String)
    (db : List Line) : Nat :=
  (userCatSpend (deckLoyaltyBase p gcol db)).length

/-- The deck loyalty row set: `brand_agg` filtered by
`brand_buyers >= $k OR brand = 'UNKNOWN'` (a drop, not a merge), ordered by
`CASE brand WHEN 'UNKNOWN' THEN 2 ELSE 1 END, brand_buyers DESC`,
`LIMIT 10`. -/
def deckLoyaltyRows (p : DeckParams) (gcol : Line → Option String)
    (db : List Line) : List BrandAggRow :=
  let base := deckLoyaltyBase p gcol db
  let ucs := userCatSpend base
  let sh := sharesOf base ucs
  let eligible := ucs.length
  let agg := ((sh.map (·.brand)).dedup).map (brandAggRowOf eligible sh)
  (insertionSortBy (fun a b =>
      (if a.brand == "UNKNOWN" then 2 else 1) < (if b.brand == "UNKNOWN" then 2 else 1) ||
      ((if a.brand == "UNKNOWN" then 2 else 1 : Nat) ==
          (if b.brand == "UNKNOWN" then 2 else 1) &&
        b.brand_buyers ≤ a.brand_buyers))
    (agg.filter fun r =>
      p.k_threshold ≤ r.brand_buyers || r.brand == "UNKNOWN")).take 10

/-- One element of the deck loyalty `data` array. -/
structure DeckBrandRow where
  brand : String
  brand_buyers : Nat
  penetration_pct : ℚ
  p75 : ℚ
  loyalty_rate_pct : ℚ
  trust_level : Option String
deriving DecidableEq, Repr

/-- The deck loyalty section of the response. -/
structure DeckLoyaltySection where
  data : List DeckBrandRow
  trust_level : Option String
deriving DecidableEq, Repr

/-- The code's trust tiering of the deck loyalty section (v2.1 line 1792):
thresholds on `eligible_users` only; dimension coverage is not consulted. -/
def deckTrustTier (eligible : Nat) : String :=
  if eligible < 10 then "SUPPRESSED"
  else if eligible < 30 then "LOW"
  else if eligible < 100 then "MEDIUM"
  else "HIGH"

/-- The JS row mapping of the deck loyalty section (v2.1 line 1788). -/
def deckBrandRowOf (r : BrandAggRow) : DeckBrandRow :=
  { brand := r.brand, brand_buyers := r.brand_buyers,
    penetration_pct := r.penetration_pct.getD 0,
    p75 := r.p75.getD 0,
    loyalty_rate_pct := (if r.brand_buyers = 0 then none
      else some (sqlRound2
        (100 * (r.loyal_users : ℚ) / (r.brand_buyers : ℚ)))).getD 0,
    trust_level := if r.brand == "UNKNOWN" then some "SUPPRESSED" else none }

/-- The JS assembly of the deck loyalty section (v2.1 lines 1784-1794):
when the query returns rows, `data` is populated from them — regardless of
the trust verdict — and `trust_level` is tiered from `eligible_users`; with
no rows the defaults (`data = []`, `trust_level = null`) stand. -/
def deckLoyalty (p : DeckParams) (gcol : Line → Option String)
    (db : List Line) : DeckLoyaltySection :=
  let rows := deckLoyaltyRows p gcol db
  if rows.isEmpty then { data := [], trust_level := none }
  else
    { data := rows.map deckBrandRowOf,
      trust_level := some (deckTrustTier (deckEligibleUsers p gcol db)) }

/-! ### Request validation: `parseFilters` (v2.2 lines 1995-2094) -/

/-- The request fields `parseFilters` validates.  `start` / `endD` model the
result of `parseDate` on the respective query parameter (`none` = missing or
unparseable; `parseDate` never compares the two bounds). -/
structure ReqFilters where
  start : Option CalDate
  endD : Option CalDate
  issuer_ruc : Option String
  category_value : Option String
deriving DecidableEq, Repr

/-- The `invalid` list built by `parseFilters` (v2.2 lines 2045-2055),
reduced to the field names: presence checks only — no relation between
`start` and `end` is ever examined. -/
def invalidFields (requireDates requireIssuer requireCategoryValue : Bool)
    (r : ReqFilters) : List String :=
  (if requireDates && r.start.isNone then ["start"] else []) ++
  (if requireDates && r.endD.isNone then ["end"] else []) ++
  (if requireIssuer && r.issuer_ruc.isNone then ["issuer_ruc"] else []) ++
  (if requireCategoryValue && r.category_value.isNone then ["category_value"] else [])

/-- `filters.isValid` (`invalid.length === 0`). -/
def filtersValid (requireDates requireIssuer requireCategoryValue : Bool)
    (r : ReqFilters) : Bool :=
  (invalidFields requireDates requireIssuer requireCategoryValue r).isEmpty

/-- The capture endpoint including its validation gate: a 400 error exactly
when `isValid` is false, otherwise the computed data (the `getD` defaults
are never reached on the `ok` path since validity forces the fields to be
present). -/
def captureEndpoint (reconcile : Option Bool) (k : Nat) (path : PathFilter)
    (gcol : Line → Option String) (peerWhere : Line → Bool) (db : List Line)
    (r : ReqFilters) : Except (List String) (List CaptureOutRow) :=
  if filtersValid true true false r then
    .ok (captureData
      { startDate := r.start.getD ⟨0, 0⟩, endDate := r.endD.getD ⟨0, 0⟩,
        issuer_ruc := r.issuer_ruc.getD "", reconcile_ok := reconcile,
        k_threshold := k, path := path } gcol peerWhere db)
  else .error (invalidFields true true false r)

/-! ### Concrete inputs used by counterexamples and witnesses -/

/-- Peer scope `all`: the interpolated `${peerScopeWhere}` clause is empty. -/
def allPeers : Line → Bool := fun _ => true

/-- Default grouping column selector (`group_by_col = category_l1`). -/
def gL1 : Line → Option String := (·.cat_l1)

/-- No category-path filter supplied. -/
def noPath : PathFilter := ⟨none, none, none, none⟩

/-- Capture parameters with the default `k = 5`. -/
def pUnknownK5 : CaptureParams := ⟨⟨0, 0⟩, ⟨1, 0⟩, "X", none, 5, noPath⟩

/-- A single line of one user at issuer X with a NULL category. -/
def dbUnknownOnly : List Line :=
  [⟨1, 1, ⟨0, 1⟩, "X", none, none, none, none, none, 10, none⟩]

/-- Capture parameters with `k = 1` (no merge possible). -/
def pCaptureK1 : CaptureParams := ⟨⟨0, 0⟩, ⟨1, 0⟩, "X", none, 1, noPath⟩

/-- A single line whose `category_l1` is the blank string `" "`. -/
def dbBlankCat : List Line :=
  [⟨1, 1, ⟨0, 1⟩, "X", some " ", none, none, none, none, 10, none⟩]

/-- A single line with zero spend (presence-only cohort membership and a
zero market denominator). -/
def dbZeroSpend : List Line :=
  [⟨1, 1, ⟨0, 1⟩, "X", some "FOOD", none, none, none, none, 0, none⟩]

/-- Waterfall parameters over three months of category FOOD at issuer X. -/
def pWf : WaterfallParams := ⟨⟨0, 0⟩, ⟨3, 0⟩, "X", none, "FOOD"⟩

/-- Two overlapping cohorts: user 1 transitions out of month 0 and month 1,
user 2 out of month 1 (three transitions, two origin months). -/
def dbWf : List Line :=
  [⟨1, 1, ⟨0, 1⟩, "X", some "FOOD", none, none, none, none, 10, none⟩,
   ⟨1, 2, ⟨1, 1⟩, "X", some "FOOD", none, none, none, none, 10, none⟩,
   ⟨2, 3, ⟨1, 2⟩, "X", some "FOOD", none, none, none, none, 10, none⟩,
   ⟨2, 4, ⟨2, 1⟩, "X", some "FOOD", none, none, none, none, 10, none⟩]

/-- Deck parameters with `k = 1` over category FOOD. -/
def pDeck : DeckParams := ⟨⟨0, 0⟩, ⟨1, 0⟩, "X", none, "FOOD", 1⟩

/-- One user buying brand A in category FOOD at issuer X
(`eligible_users = 1 < 10`). -/
def dbDeck : List Line :=
  [⟨1, 1, ⟨0, 1⟩, "X", some "FOOD", none, none, none, some "A", 10, none⟩]

/-- Loyalty parameters with `k = 1` over category FOOD. -/
def pLoy : LoyaltyParams := ⟨⟨0, 0⟩, ⟨1, 0⟩, "X", none, "FOOD", 1⟩

/-- One user with a NULL brand in category FOOD at issuer X. -/
def dbLoyUnknownBrand : List Line :=
  [⟨1, 1, ⟨0, 1⟩, "X", some "FOOD", none, none, none, none, 10, none⟩]

/-- A request whose window is empty: `start` (month 2) after `end`
(month 1), both present and parseable, issuer present. -/
def reqBadWindow : ReqFilters := ⟨some ⟨2, 1⟩, some ⟨1, 1⟩, some "X", none⟩

/-! ## Theorems -/

/-! ### Rounding and granularity lemmas -/

theorem qfloor_eq (q : ℚ) : qfloor q = ⌊q⌋ := Rat.floor_def.symm

theorem roundHalfUp_eq (q : ℚ) : roundHalfUp q = round q := by
  rw [roundHalfUp, qfloor_eq, round_eq]

theorem centGrain_zero : centGrain 0 := ⟨0, by norm_num⟩

theorem centGrain_add {a b : ℚ} (ha : centGrain a) (hb : centGrain b) :
    centGrain (a + b) := by
  obtain ⟨m, rfl⟩ := ha
  obtain ⟨n, rfl⟩ := hb
  exact ⟨m + n, by push_cast; ring⟩

theorem centGrain_sub {a b : ℚ} (ha : centGrain a) (hb : centGrain b) :
    centGrain (a - b) := by
  obtain ⟨m, rfl⟩ := ha
  obtain ⟨n, rfl⟩ := hb
  exact ⟨m - n, by push_cast; ring⟩

theorem centGrain_sumBy {l : List α} {f : α → ℚ}
    (h : ∀ x ∈ l, centGrain (f x)) : centGrain (sumBy l f) := by
  induction l with
  | nil => exact centGrain_zero
  | cons x xs ih =>
    have hx := h x (List.mem_cons_self x xs)
    have hxs := ih fun y hy => h y (List.mem_cons_of_mem x hy)
    simpa [sumBy] using centGrain_add hx (by simpa [sumBy] using hxs)

theorem jsRoundCents_centGrain {q : ℚ} (h : centGrain q) : jsRoundCents q = q := by
  obtain ⟨n, rfl⟩ := h
  have h100 : ((n : ℚ) / 100) * 100 = (n : ℚ) := by field_simp
  rw [jsRoundCents, h100, roundHalfUp_eq, round_intCast]

theorem sqlRound2_err (q : ℚ) : |sqlRound2 q - q| ≤ 1 / 200 := by
  have key : ∀ y : ℚ, |((round y : ℤ) : ℚ) / 100 - y / 100| ≤ 1 / 200 := by
    intro y
    rw [div_sub_div_same, abs_div]
    have h1 : |((round y : ℤ) : ℚ) - y| ≤ 1 / 2 := by
      rw [abs_sub_comm]; exact abs_sub_round y
    have h2 : |(100 : ℚ)| = 100 := by norm_num
    rw [h2]
    have h3 := (div_le_div_iff_of_pos_right (c := (100:ℚ)) (by norm_num)).mpr h1
    linarith
  rw [sqlRound2]
  split_ifs with hneg
  · have := key (-q * 100)
    have hq : (-q * 100) / 100 = -q := by field_simp
    rw [hq] at this
    rw [roundHalfUp_eq]
    calc |-(((round (-q * 100) : ℤ) : ℚ) / 100) - q|
        = |((round (-q * 100) : ℤ) : ℚ) / 100 - -q| := by rw [abs_sub_comm]; ring_nf
      _ ≤ 1 / 200 := this
  · have := key (q * 100)
    have hq : (q * 100) / 100 = q := by field_simp
    rw [hq] at this
    rw [roundHalfUp_eq]
    exact this

/-! ### List helper lemmas -/

theorem sum_map_sub_q (l : List α) (f g : α → ℚ) :
    (l.map fun x => f x - g x).sum = (l.map f).sum - (l.map g).sum := by
  induction l with
  | nil => simp
  | cons x xs ih => simp [ih]; ring

theorem mem_insertSortedBy (le : α → α → Bool) (x a : α) (l : List α) :
    a ∈ insertSortedBy le x l ↔ a = x ∨ a ∈ l := by
  induction l with
  | nil => simp [insertSortedBy]
  | cons y ys ih =>
    rw [insertSortedBy]
    split_ifs with h
    · simp [or_assoc]
    · simp [ih]
      tauto

theorem mem_insertionSortBy (le : α → α → Bool) (a : α) (l : List α) :
    a ∈ insertionSortBy le l ↔ a ∈ l := by
  induction l with
  | nil => simp [insertionSortBy]
  | cons y ys ih =>
    rw [insertionSortBy, List.foldr_cons, mem_insertSortedBy]
    rw [insertionSortBy] at ih
    rw [ih]
    simp

/-! ### Capture lemmas -/

theorem capturePeerSpend_grain (p : CaptureParams) (gcol : Line → Option String)
    (peerWhere : Line → Bool) (db : List Line) (hg : centGrainDB db) :
    ∀ r ∈ capturePeerSpend p gcol peerWhere db, centGrain r.spend := by
  intro r hr
  simp only [capturePeerSpend, List.mem_map] at hr
  obtain ⟨key, _, h⟩ := hr
  subst h
  exact centGrain_sumBy fun l hl =>
    hg l (List.mem_of_mem_filter (List.mem_of_mem_filter hl))

theorem captureGrouped_leakage (p : CaptureParams) (gcol : Line → Option String)
    (peerWhere : Line → Bool) (db : List Line) :
    ∀ r ∈ captureGrouped p gcol peerWhere db,
      r.leakage_usd = r.spend_market_usd - r.spend_in_x_usd := by
  intro r hr
  simp only [captureGrouped, List.mem_map] at hr
  obtain ⟨c, _, h⟩ := hr
  subst h
  rfl

theorem captureGroupedRow_inx_def (issuer : String) (ps : List PeerSpendRow)
    (c : String) :
    (captureGroupedRow issuer ps c).spend_in_x_usd =
      sumBy (ps.filter fun r => r.category_value == c)
        (fun r => if r.issuer_ruc == issuer then r.spend else 0) := rfl

theorem captureGroupedRow_mkt_def (issuer : String) (ps : List PeerSpendRow)
    (c : String) :
    (captureGroupedRow issuer ps c).spend_market_usd =
      sumBy (ps.filter fun r => r.category_value == c) (·.spend) := rfl

theorem captureMergedRow_leakage_def (k : Nat) (g : List CaptureAggRow)
    (c : String) :
    (captureMergedRow k g c).leakage_usd =
      sumBy (g.filter fun r => captureMergeKey k r == c) (·.leakage_usd) := rfl

theorem captureMergedRow_inx_def (k : Nat) (g : List CaptureAggRow)
    (c : String) :
    (captureMergedRow k g c).spend_in_x_usd =
      sumBy (g.filter fun r => captureMergeKey k r == c) (·.spend_in_x_usd) := rfl

theorem captureMergedRow_mkt_def (k : Nat) (g : List CaptureAggRow)
    (c : String) :
    (captureMergedRow k g c).spend_market_usd =
      sumBy (g.filter fun r => captureMergeKey k r == c) (·.spend_market_usd) := rfl

theorem captureMergedRow_users_def (k : Nat) (g : List CaptureAggRow)
    (c : String) :
    (captureMergedRow k g c).users =
      natSum ((g.filter fun r => captureMergeKey k r == c).map (·.users)) := rfl

theorem captureMergedRow_sow_def (k : Nat) (g : List CaptureAggRow)
    (c : String) :
    (captureMergedRow k g c).sow_pct =
      if (captureMergedRow k g c).spend_market_usd = 0 then none
      else some (sqlRound2 (100 * (captureMergedRow k g c).spend_in_x_usd /
        (captureMergedRow k g c).spend_market_usd)) := rfl

theorem captureGrouped_grain (p : CaptureParams) (gcol : Line → Option String)
    (peerWhere : Line → Bool) (db : List Line) (hg : centGrainDB db) :
    ∀ r ∈ captureGrouped p gcol peerWhere db,
      centGrain r.spend_in_x_usd ∧ centGrain r.spend_market_usd := by
  intro r hr
  simp only [captureGrouped, List.mem_map] at hr
  obtain ⟨c, _, h⟩ := hr
  subst h
  constructor
  · rw [captureGroupedRow_inx_def]
    refine centGrain_sumBy fun x hx => ?_
    by_cases hb : (x.issuer_ruc == p.issuer_ruc) = true
    · rw [if_pos hb]
      exact capturePeerSpend_grain p gcol peerWhere db hg x
        (List.mem_of_mem_filter hx)
    · rw [if_neg hb]
      exact centGrain_zero
  · rw [captureGroupedRow_mkt_def]
    exact centGrain_sumBy fun x hx =>
      capturePeerSpend_grain p gcol peerWhere db hg x (List.mem_of_mem_filter hx)

theorem captureMerged_fields (p : CaptureParams) (gcol : Line → Option String)
    (peerWhere : Line → Bool) (db : List Line) :
    ∀ r ∈ captureMerged p gcol peerWhere db,
      ∃ c, (∃ g0 ∈ captureGrouped p gcol peerWhere db,
          captureMergeKey p.k_threshold g0 = c) ∧
        r = captureMergedRow p.k_threshold
          (captureGrouped p gcol peerWhere db) c := by
  intro r hr
  simp only [captureMerged, mem_insertionSortBy, List.mem_map,
    List.mem_dedup] at hr
  obtain ⟨c, hc, h⟩ := hr
  exact ⟨c, hc, h.symm⟩

theorem captureMerged_leakage (p : CaptureParams) (gcol : Line → Option String)
    (peerWhere : Line → Bool) (db : List Line) :
    ∀ r ∈ captureMerged p gcol peerWhere db,
      r.leakage_usd = r.spend_market_usd - r.spend_in_x_usd := by
  intro r hr
  obtain ⟨c, -, rfl⟩ := captureMerged_fields p gcol peerWhere db r hr
  rw [captureMergedRow_leakage_def, captureMergedRow_mkt_def,
    captureMergedRow_inx_def, sumBy, sumBy, sumBy]
  rw [List.map_congr_left (fun x hx =>
    captureGrouped_leakage p gcol peerWhere db x (List.mem_of_mem_filter hx))]
  exact sum_map_sub_q _ _ _

theorem captureMerged_grain (p : CaptureParams) (gcol : Line → Option String)
    (peerWhere : Line → Bool) (db : List Line) (hg : centGrainDB db) :
    ∀ r ∈ captureMerged p gcol peerWhere db,
      centGrain r.spend_in_x_usd ∧ centGrain r.spend_market_usd ∧
        centGrain r.leakage_usd := by
  intro r hr
  have hinx : centGrain r.spend_in_x_usd := by
    obtain ⟨c, -, rfl⟩ := captureMerged_fields p gcol peerWhere db r hr
    rw [captureMergedRow_inx_def]
    exact centGrain_sumBy fun x hx =>
      (captureGrouped_grain p gcol peerWhere db hg x (List.mem_of_mem_filter hx)).1
  have hmkt : centGrain r.spend_market_usd := by
    obtain ⟨c, -, rfl⟩ := captureMerged_fields p gcol peerWhere db r hr
    rw [captureMergedRow_mkt_def]
    exact centGrain_sumBy fun x hx =>
      (captureGrouped_grain p gcol peerWhere db hg x (List.mem_of_mem_filter hx)).2
  refine ⟨hinx, hmkt, ?_⟩
  rw [captureMerged_leakage p gcol peerWhere db r hr]
  exact centGrain_sub hmkt hinx

/-! ### Claim theorems: capture -/

/-- Claim C4: for every category row of the capture output, `leakage_usd`
equals `spend_market_usd − spend_in_x_usd` exactly — in the pre-merge
`grouped` CTE, after the k-anonymity merge (where the merged row's leakage
is the sum of the merged groups' leakages, not recomputed from merged
percentages), and in the reported JSON rows; for the JSON rows the identity
needs the cent granularity of monetary amounts, under which the JS cent
rounding is the identity. -/
theorem capture_leakage_identity (p : CaptureParams)
    (gcol : Line → Option String) (peerWhere : Line → Bool) (db : List Line) :
    (∀ r ∈ captureGrouped p gcol peerWhere db,
        r.leakage_usd = r.spend_market_usd - r.spend_in_x_usd) ∧
    (∀ r ∈ captureMerged p gcol peerWhere db,
        r.leakage_usd = r.spend_market_usd - r.spend_in_x_usd) ∧
    (centGrainDB db → ∀ r ∈ captureData p gcol peerWhere db,
        r.leakage_usd = r.spend_market_usd - r.spend_in_x_usd) := by
  refine ⟨captureGrouped_leakage p gcol peerWhere db,
          captureMerged_leakage p gcol peerWhere db, ?_⟩
  intro hg r hr
  simp only [captureData, List.mem_map] at hr
  obtain ⟨m, hm, h⟩ := hr
  subst h
  obtain ⟨hinx, hmkt, hleak⟩ := captureMerged_grain p gcol peerWhere db hg m hm
  show jsRoundCents m.leakage_usd =
    jsRoundCents m.spend_market_usd - jsRoundCents m.spend_in_x_usd
  rw [jsRoundCents_centGrain hinx, jsRoundCents_centGrain hmkt,
    jsRoundCents_centGrain hleak]
  exact captureMerged_leakage p gcol peerWhere db m hm

/-- Claim C4 (witness): the identity instantiated on a concrete database. -/
theorem capture_leakage_identity_witness :
    (∃ r ∈ captureGrouped pCaptureK1 gL1 allPeers dbBlankCat,
      r.leakage_usd = r.spend_market_usd - r.spend_in_x_usd) ∧
    (∃ r ∈ captureData pCaptureK1 gL1 allPeers dbBlankCat,
      r.leakage_usd = r.spend_market_usd - r.spend_in_x_usd) := by
  have h1 : captureGrouped pCaptureK1 gL1 allPeers dbBlankCat ≠ [] := by decide
  have h2 : captureData pCaptureK1 gL1 allPeers dbBlankCat ≠ [] := by decide
  have hg : centGrainDB dbBlankCat := by
    intro l hl
    have : l = ⟨1, 1, ⟨0, 1⟩, "X", some " ", none, none, none, none, 10, none⟩ := by
      simpa [dbBlankCat] using hl
    subst this
    exact ⟨1000, by norm_num⟩
  exact ⟨⟨_, List.head_mem h1,
      (capture_leakage_identity pCaptureK1 gL1 allPeers dbBlankCat).1 _
        (List.head_mem h1)⟩,
    ⟨_, List.head_mem h2,
      (capture_leakage_identity pCaptureK1 gL1 allPeers dbBlankCat).2.2 hg _
        (List.head_mem h2)⟩⟩

/-- Claim C5: for every capture category row whose market denominator is
zero, the reported `sow_pct` is 0 (the SQL `NULLIF` yields NULL and the JS
`Number(null)` yields 0); likewise the KPI summary's `sow_pct` CASE yields
0 on a zero market.  Stated over cent-grain monetary amounts, under which
the reported `spend_market_usd` equals the SQL sum. -/
theorem capture_sow_zero_denominator (p : CaptureParams)
    (gcol : Line → Option String) (peerWhere : Line → Bool) (db : List Line)
    (hg : centGrainDB db) :
    (∀ r ∈ captureData p gcol peerWhere db,
        r.spend_market_usd = 0 → r.sow_pct = 0) ∧
    (∀ ventas : ℚ, kpisSowPct ventas 0 = 0) := by
  constructor
  · intro r hr hzero
    simp only [captureData, List.mem_map] at hr
    obtain ⟨m, hm, h⟩ := hr
    subst h
    obtain ⟨_, hmkt, _⟩ := captureMerged_grain p gcol peerWhere db hg m hm
    have hzero' : jsRoundCents m.spend_market_usd = 0 := hzero
    rw [jsRoundCents_centGrain hmkt] at hzero'
    show m.sow_pct.getD 0 = 0
    obtain ⟨c, -, rfl⟩ := captureMerged_fields p gcol peerWhere db m hm
    rw [captureMergedRow_sow_def, if_pos hzero']
    rfl
  · intro ventas
    simp [kpisSowPct]

/-- Claim C5 (witness): a concrete zero-spend cohort line produces a capture
row with a zero market denominator and a reported share of 0. -/
theorem capture_sow_zero_denominator_witness :
    ∃ r ∈ captureData pCaptureK1 gL1 allPeers dbZeroSpend,
      r.spend_market_usd = 0 ∧ r.sow_pct = 0 := by
  have hg : centGrainDB dbZeroSpend := by
    intro l hl
    have : l = ⟨1, 1, ⟨0, 1⟩, "X", some "FOOD", none, none, none, none, 0, none⟩ := by
      simpa [dbZeroSpend] using hl
    subst this
    exact ⟨0, by norm_num⟩
  have heval : captureData pCaptureK1 gL1 allPeers dbZeroSpend =
      [⟨"FOOD", 1, 0, 0, 0, 0, false, none⟩] := by
    with_unfolding_all decide
  have hmem : (⟨"FOOD", 1, 0, 0, 0, 0, false, none⟩ : CaptureOutRow) ∈
      captureData pCaptureK1 gL1 allPeers dbZeroSpend := by
    rw [heval]
    exact List.mem_singleton_self _
  exact ⟨_, hmem, rfl,
    (capture_sow_zero_denominator pCaptureK1 gL1 allPeers dbZeroSpend hg).1 _
      hmem rfl⟩

/-- Claim C1 (counterexample): with the default `k = 5`, a capture UNKNOWN
group of support 1 is merged into OTHER_SUPPRESSED: the output contains no
standalone UNKNOWN row (and hence no `trust_level = SUPPRESSED` tag), which
contradicts the claim that UNKNOWN is never merged. -/
theorem capture_unknown_merged_cex :
    ((captureData pUnknownK5 gL1 allPeers dbUnknownOnly).map fun r =>
        (r.category_value, r.users, r.trust_level)) =
      [("OTHER_SUPPRESSED", 1, none)] := by
  decide

/-- Claim C9 (counterexample): a line whose `category_l1` is the blank
string `" "` is not normalized to UNKNOWN by the capture query — `COALESCE`
only replaces NULL — so it is reported as its own group named `" "`. -/
theorem capture_blank_category_cex :
    ((captureData pCaptureK1 gL1 allPeers dbBlankCat).map (·.category_value)) =
      [" "] := by
  decide

/-! ### Loyalty lemmas -/

theorem loyaltyFinalRowOf_buyers_def (k : Nat) (agg : List BrandAggRow)
    (b : String) :
    (loyaltyFinalRowOf k agg b).brand_buyers =
      natSum ((agg.filter fun r => loyaltyMergeKey k r == b).map
        (·.brand_buyers)) := rfl

theorem loyaltyBrandFinal_fields (p : LoyaltyParams)
    (gcol : Line → Option String) (db : List Line) :
    ∀ r ∈ loyaltyBrandFinal p gcol db,
      ∃ b, (∃ a ∈ loyaltyBrandAgg p gcol db,
          loyaltyMergeKey p.k_threshold a = b) ∧
        r = loyaltyFinalRowOf p.k_threshold (loyaltyBrandAgg p gcol db) b := by
  intro r hr
  simp only [loyaltyBrandFinal, mem_insertionSortBy, List.mem_map,
    List.mem_dedup] at hr
  obtain ⟨b, hb, h⟩ := hr
  exact ⟨b, hb, h.symm⟩

theorem loyaltyMergeKey_unknown (k : Nat) (a : BrandAggRow)
    (h : a.brand = "UNKNOWN") : loyaltyMergeKey k a = "UNKNOWN" := by
  rw [loyaltyMergeKey, if_neg]
  · exact h
  · rintro ⟨-, hne⟩
    exact hne h

/-! ### Claim theorems: k-anonymity merge (C1) -/

/-- Claim C1 (amended): in the capture output every row other than
OTHER_SUPPRESSED has support at least k — but UNKNOWN enjoys no exemption
from the merge (a below-k UNKNOWN group is folded into OTHER_SUPPRESSED,
see the counterexample), and a surviving UNKNOWN row is tagged
`trust_level = SUPPRESSED`.  In the loyalty output every row other than
OTHER_SUPPRESSED and UNKNOWN has support at least k, UNKNOWN is never
relabelled by the merge (an UNKNOWN aggregation group always yields a
standalone UNKNOWN output row) and is always tagged
`trust_level = SUPPRESSED`. -/
theorem kanon_merge_amended (p : CaptureParams) (lp : LoyaltyParams)
    (gcol gcolL : Line → Option String) (peerWhere : Line → Bool)
    (db dbL : List Line) :
    (∀ r ∈ captureData p gcol peerWhere db,
        r.category_value ≠ "OTHER_SUPPRESSED" → p.k_threshold ≤ r.users) ∧
    (∀ r ∈ captureData p gcol peerWhere db,
        r.category_value = "UNKNOWN" → r.trust_level = some "SUPPRESSED") ∧
    (∀ r ∈ loyaltyData lp gcolL dbL,
        r.brand ≠ "OTHER_SUPPRESSED" → r.brand ≠ "UNKNOWN" →
          lp.k_threshold ≤ r.brand_buyers) ∧
    (∀ r ∈ loyaltyData lp gcolL dbL,
        r.brand = "UNKNOWN" → r.trust_level = some "SUPPRESSED") ∧
    ((∃ a ∈ loyaltyBrandAgg lp gcolL dbL, a.brand = "UNKNOWN") →
      ∃ r ∈ loyaltyData lp gcolL dbL, r.brand = "UNKNOWN") := by
  refine ⟨?_, ?_, ?_, ?_, ?_⟩
  · -- capture: non-OTHER rows have support ≥ k
    intro r hr hne
    simp only [captureData, List.mem_map] at hr
    obtain ⟨m, hm, h⟩ := hr
    subst h
    obtain ⟨c, ⟨g0, hg0, hkey⟩, rfl⟩ :=
      captureMerged_fields p gcol peerWhere db m hm
    have hcne : c ≠ "OTHER_SUPPRESSED" := hne
    have hge : p.k_threshold ≤ g0.users := by
      by_contra hlt
      push_neg at hlt
      apply hcne
      rw [← hkey, captureMergeKey, if_pos hlt]
    have hg0f : g0 ∈ (captureGrouped p gcol peerWhere db).filter
        fun r => captureMergeKey p.k_threshold r == c :=
      List.mem_filter.mpr ⟨hg0, beq_iff_eq.mpr hkey⟩
    calc p.k_threshold ≤ g0.users := hge
      _ ≤ _ := List.single_le_sum (fun _ _ => Nat.zero_le _) _
          (List.mem_map_of_mem (·.users) hg0f)
  · -- capture: UNKNOWN rows are tagged SUPPRESSED
    intro r hr hu
    simp only [captureData, List.mem_map] at hr
    obtain ⟨m, hm, h⟩ := hr
    subst h
    have : m.category_value = "UNKNOWN" := hu
    simp [this]
  · -- loyalty: non-OTHER, non-UNKNOWN rows have support ≥ k
    intro r hr hne hnu
    simp only [loyaltyData, List.mem_map] at hr
    obtain ⟨m, hm, h⟩ := hr
    subst h
    obtain ⟨b, ⟨a0, ha0, hkey⟩, rfl⟩ := loyaltyBrandFinal_fields lp gcolL dbL m hm
    have hbne : b ≠ "OTHER_SUPPRESSED" := hne
    have hbnu : b ≠ "UNKNOWN" := hnu
    have hge : lp.k_threshold ≤ a0.brand_buyers := by
      by_contra hlt
      push_neg at hlt
      rcases eq_or_ne a0.brand "UNKNOWN" with hu | hu
      · exact hbnu (by rw [← hkey, loyaltyMergeKey_unknown _ _ hu])
      · apply hbne
        rw [← hkey, loyaltyMergeKey, if_pos ⟨hlt, hu⟩]
    have ha0f : a0 ∈ (loyaltyBrandAgg lp gcolL dbL).filter
        fun r => loyaltyMergeKey lp.k_threshold r == b :=
      List.mem_filter.mpr ⟨ha0, beq_iff_eq.mpr hkey⟩
    calc lp.k_threshold ≤ a0.brand_buyers := hge
      _ ≤ _ := List.single_le_sum (fun _ _ => Nat.zero_le _) _
          (List.mem_map_of_mem (·.brand_buyers) ha0f)
  · -- loyalty: UNKNOWN rows are tagged SUPPRESSED
    intro r hr hu
    simp only [loyaltyData, List.mem_map] at hr
    obtain ⟨m, hm, h⟩ := hr
    subst h
    have : m.brand = "UNKNOWN" := hu
    simp [this]
  · -- loyalty: an UNKNOWN aggregation group yields a standalone UNKNOWN row
    rintro ⟨a, ha, hbrand⟩
    have hkey : loyaltyMergeKey lp.k_threshold a = "UNKNOWN" :=
      loyaltyMergeKey_unknown _ _ hbrand
    have hmem : "UNKNOWN" ∈
        ((loyaltyBrandAgg lp gcolL dbL).map
          (loyaltyMergeKey lp.k_threshold)).dedup :=
      List.mem_dedup.mpr (hkey ▸ List.mem_map_of_mem _ ha)
    have hfin : loyaltyFinalRowOf lp.k_threshold (loyaltyBrandAgg lp gcolL dbL)
        "UNKNOWN" ∈ loyaltyBrandFinal lp gcolL dbL := by
      simp only [loyaltyBrandFinal, mem_insertionSortBy, List.mem_map]
      exact ⟨"UNKNOWN", hmem, rfl⟩
    simp only [loyaltyData, List.mem_map]
    exact ⟨_, ⟨_, hfin, rfl⟩, rfl⟩

/-- Claim C1 (witness): amended statement instantiated on concrete inputs —
a surviving blank-category capture group with support ≥ k, and a loyalty
UNKNOWN brand that stays standalone and tagged. -/
theorem kanon_merge_amended_witness :
    (∃ r ∈ captureData pCaptureK1 gL1 allPeers dbBlankCat,
      r.category_value ≠ "OTHER_SUPPRESSED" ∧ pCaptureK1.k_threshold ≤ r.users) ∧
    (∃ r ∈ loyaltyData pLoy gL1 dbLoyUnknownBrand,
      r.brand = "UNKNOWN" ∧ r.trust_level = some "SUPPRESSED") := by
  constructor
  · have heval : captureData pCaptureK1 gL1 allPeers dbBlankCat =
        [⟨" ", 1, 10, 10, 0, 100, false, none⟩] := by
      with_unfolding_all decide
    have hmem : (⟨" ", 1, 10, 10, 0, 100, false, none⟩ : CaptureOutRow) ∈
        captureData pCaptureK1 gL1 allPeers dbBlankCat := by
      rw [heval]
      exact List.mem_singleton_self _
    exact ⟨_, hmem, by decide,
      (kanon_merge_amended pCaptureK1 pLoy gL1 gL1 allPeers dbBlankCat
        dbLoyUnknownBrand).1 _ hmem (by decide)⟩
  · have hagg : loyaltyBrandAgg pLoy gL1 dbLoyUnknownBrand =
        [⟨"UNKNOWN", 1, some 100, some 100, 1⟩] := by
      with_unfolding_all decide
    have ha : (⟨"UNKNOWN", 1, some 100, some 100, 1⟩ : BrandAggRow) ∈
        loyaltyBrandAgg pLoy gL1 dbLoyUnknownBrand := by
      rw [hagg]
      exact List.mem_singleton_self _
    obtain ⟨r, hr, hbrand⟩ :=
      (kanon_merge_amended pCaptureK1 pLoy gL1 gL1 allPeers dbBlankCat
        dbLoyUnknownBrand).2.2.2.2 ⟨_, ha, rfl⟩
    exact ⟨r, hr, hbrand,
      (kanon_merge_amended pCaptureK1 pLoy gL1 gL1 allPeers dbBlankCat
        dbLoyUnknownBrand).2.2.2.1 r hr hbrand⟩

/-! ### Waterfall lemmas -/

theorem waterfallRowOf_users_def (ts : List TransitionRow) (b : Bucket) :
    (waterfallRowOf ts b).users =
      ts.countP fun t => decide (classifyBucket t = b) := rfl

theorem waterfallRowOf_pct_def (ts : List TransitionRow) (b : Bucket) :
    (waterfallRowOf ts b).pct = if ts.length = 0 then 0
      else sqlRound2 (100 * ((ts.countP fun t =>
        decide (classifyBucket t = b)) : ℚ) / (ts.length : ℚ)) := rfl

theorem countP_bucket_partition (ts : List TransitionRow) :
    natSum (bucketOrder.map fun b =>
      ts.countP fun t => decide (classifyBucket t = b)) = ts.length := by
  induction ts with
  | nil => rfl
  | cons t ts ih =>
    have hcp : ∀ b, (t :: ts).countP (fun x => decide (classifyBucket x = b)) =
        ts.countP (fun x => decide (classifyBucket x = b)) +
          if classifyBucket t = b then 1 else 0 := by
      intro b
      rw [List.countP_cons]
      by_cases hb : classifyBucket t = b <;> simp [hb]
    simp only [bucketOrder, List.map_cons, List.map_nil, natSum,
      List.sum_cons, List.sum_nil] at ih ⊢
    rw [hcp, hcp, hcp, hcp, hcp, hcp]
    cases h : classifyBucket t <;> simp [h] <;> omega

theorem waterfall_users_total (p : WaterfallParams)
    (gcol : Line → Option String) (db : List Line) :
    natSum ((waterfallOutput p gcol db).map (·.users)) =
      (transitionsOf p gcol db).length := by
  rw [waterfallOutput, List.map_map]
  have h : ((fun r => r.users) ∘ waterfallRowOf (transitionsOf p gcol db)) =
      fun b => (transitionsOf p gcol db).countP fun t =>
        decide (classifyBucket t = b) := rfl
  rw [h]
  exact countP_bucket_partition _

theorem round2_six_sum (c1 c2 c3 c4 c5 c6 T : ℕ) (hT : T ≠ 0)
    (hc : c1 + c2 + c3 + c4 + c5 + c6 = T) :
    |sqlRound2 (100 * (c1 : ℚ) / T) + sqlRound2 (100 * (c2 : ℚ) / T) +
      sqlRound2 (100 * (c3 : ℚ) / T) + sqlRound2 (100 * (c4 : ℚ) / T) +
      sqlRound2 (100 * (c5 : ℚ) / T) + sqlRound2 (100 * (c6 : ℚ) / T) - 100|
      ≤ 3 / 100 := by
  have hTQ : (T : ℚ) ≠ 0 := Nat.cast_ne_zero.mpr hT
  have hcast : (c1 : ℚ) + c2 + c3 + c4 + c5 + c6 = (T : ℚ) := by
    exact_mod_cast hc
  have hx : 100 * (c1 : ℚ) / T + 100 * (c2 : ℚ) / T + 100 * (c3 : ℚ) / T +
      100 * (c4 : ℚ) / T + 100 * (c5 : ℚ) / T + 100 * (c6 : ℚ) / T = 100 := by
    field_simp
    linarith [hcast]
  have e1 := abs_le.mp (sqlRound2_err (100 * (c1 : ℚ) / T))
  have e2 := abs_le.mp (sqlRound2_err (100 * (c2 : ℚ) / T))
  have e3 := abs_le.mp (sqlRound2_err (100 * (c3 : ℚ) / T))
  have e4 := abs_le.mp (sqlRound2_err (100 * (c4 : ℚ) / T))
  have e5 := abs_le.mp (sqlRound2_err (100 * (c5 : ℚ) / T))
  have e6 := abs_le.mp (sqlRound2_err (100 * (c6 : ℚ) / T))
  rw [abs_le]
  constructor <;>
    linarith [e1.1, e1.2, e2.1, e2.2, e3.1, e3.2, e4.1, e4.2, e5.1, e5.2,
      e6.1, e6.2, hx]

/-! ### Claim theorems: waterfall (C2, C3) -/

/-- Claim C2: the waterfall classifier evaluates its six rules in the fixed
order RETAINED, CATEGORY_GONE, REDUCED_BASKET, REDUCED_FREQ, FULL_CHURN,
DELAYED_ONLY with the first matching rule winning (the CASE expression
refines the spec's ordered rule list), and in particular a transition with
`origin.spend_in_x = 100`, `next.spend_in_x = 95`, `next.visits_in_x = 1`
is classified RETAINED, not REDUCED_BASKET. -/
theorem waterfall_rule_order :
    (∀ t : TransitionRow, classifyBucket t = specFirstMatch specWaterfallRules t) ∧
    (∀ u o n vxo vtn : Nat,
      classifyBucket ⟨u, o, n, vxo, 100, 1, 95, vtn⟩ = Bucket.RETAINED) := by
  constructor
  · intro t
    have h1 : ((9 : ℚ)/10) * t.sx_o = t.sx_o * (9/10) := mul_comm _ _
    have h2 : ((1 : ℚ)/2) * t.sx_o = t.sx_o * (1/2) := mul_comm _ _
    simp only [specWaterfallRules, specFirstMatch, Bool.and_eq_true,
      decide_eq_true_eq, h1, h2, classifyBucket]
  · intro u o n vxo vtn
    simp only [classifyBucket]
    norm_num

/-- Claim C3 (counterexample): the waterfall output is a single global
bucket list, not a per-origin-month report — on a database with three
transitions spread over two origin months the bucket user counts sum to 3,
while the cohort of origin month 0 has exactly 1 transitioning user, so the
claimed per-month identity `Σ bucket.users = cohort_size(m)` fails. -/
theorem waterfall_not_per_month_cex :
    natSum ((waterfallOutput pWf gL1 dbWf).map (·.users)) = 3 ∧
    transCohortSize pWf gL1 dbWf 0 = 1 := by
  constructor
  · rw [waterfall_users_total]
    decide
  · decide

/-- Claim C3 (amended): the waterfall buckets partition the full transition
set of the window, aggregated over all origin months: the six bucket user
counts sum to the total number of transitions, and when at least one
transition exists the six rounded percentages sum to 100 within the 2-dp
rounding tolerance (`|Σ pct − 100| ≤ 0.03`). -/
theorem waterfall_partition_amended (p : WaterfallParams)
    (gcol : Line → Option String) (db : List Line) :
    natSum ((waterfallOutput p gcol db).map (·.users)) =
      (transitionsOf p gcol db).length ∧
    ((transitionsOf p gcol db).length ≠ 0 →
      |sumBy (waterfallOutput p gcol db) (·.pct) - 100| ≤ 3 / 100) := by
  refine ⟨waterfall_users_total p gcol db, ?_⟩
  intro hT
  have hpct : ∀ b, (waterfallRowOf (transitionsOf p gcol db) b).pct =
      sqlRound2 (100 * (((transitionsOf p gcol db).countP fun t =>
        decide (classifyBucket t = b)) : ℚ) /
        ((transitionsOf p gcol db).length : ℚ)) := fun b => by
    rw [waterfallRowOf_pct_def, if_neg hT]
  have hsum := countP_bucket_partition (transitionsOf p gcol db)
  simp only [bucketOrder, List.map_cons, List.map_nil, natSum,
    List.sum_cons, List.sum_nil] at hsum
  simp only [sumBy, waterfallOutput, List.map_map, bucketOrder,
    List.map_cons, List.map_nil, List.sum_cons, List.sum_nil,
    Function.comp_apply, hpct]
  have := round2_six_sum
    ((transitionsOf p gcol db).countP fun t =>
      decide (classifyBucket t = Bucket.RETAINED))
    ((transitionsOf p gcol db).countP fun t =>
      decide (classifyBucket t = Bucket.CATEGORY_GONE))
    ((transitionsOf p gcol db).countP fun t =>
      decide (classifyBucket t = Bucket.REDUCED_BASKET))
    ((transitionsOf p gcol db).countP fun t =>
      decide (classifyBucket t = Bucket.REDUCED_FREQ))
    ((transitionsOf p gcol db).countP fun t =>
      decide (classifyBucket t = Bucket.DELAYED_ONLY))
    ((transitionsOf p gcol db).countP fun t =>
      decide (classifyBucket t = Bucket.FULL_CHURN))
    (transitionsOf p gcol db).length hT (by omega)
  calc |sqlRound2 _ + (sqlRound2 _ + (sqlRound2 _ + (sqlRound2 _ +
        (sqlRound2 _ + (sqlRound2 _ + 0))))) - 100|
      = |sqlRound2 _ + sqlRound2 _ + sqlRound2 _ + sqlRound2 _ +
        sqlRound2 _ + sqlRound2 _ - 100| := by ring_nf
    _ ≤ 3 / 100 := this

/-- Claim C3 (witness): the amended partition instantiated on the concrete
three-transition database. -/
theorem waterfall_partition_amended_witness :
    natSum ((waterfallOutput pWf gL1 dbWf).map (·.users)) =
      (transitionsOf pWf gL1 dbWf).length ∧
    |sumBy (waterfallOutput pWf gL1 dbWf) (·.pct) - 100| ≤ 3 / 100 :=
  ⟨(waterfall_partition_amended pWf gL1 dbWf).1,
   (waterfall_partition_amended pWf gL1 dbWf).2 (by decide)⟩

/-! ### Claim theorems: trust gating of detail data (C6) -/

/-- Claim C6 (counterexample): the deck loyalty section carries
`trust_level = SUPPRESSED` (one eligible user, below `min_n = 10`) while its
per-brand detail rows are still returned — the detail payload is not
emptied, contradicting the claim. -/
theorem deck_loyalty_suppressed_rows_cex :
    (deckLoyalty pDeck gL1 dbDeck).trust_level = some "SUPPRESSED" ∧
    (deckLoyalty pDeck gL1 dbDeck).data ≠ [] := by
  constructor
  · with_unfolding_all decide
  · with_unfolding_all decide

/-- Claim C6 (amended): the deck loyalty section computes a trust verdict
from `eligible_users` alone (SUPPRESSED below 10, LOW below 30, MEDIUM
below 100, else HIGH; coverage is never consulted) but returns the
per-brand rows regardless of the verdict: a SUPPRESSED verdict coexists
with a non-empty detail payload, and the payload length always equals the
row-set length.  (The standalone v2.2 loyalty endpoint computes no window
trust verdict at all; see `loyaltyData`.) -/
theorem deck_loyalty_trust_amended (p : DeckParams)
    (gcol : Line → Option String) (db : List Line) :
    ((deckLoyalty p gcol db).trust_level = some "SUPPRESSED" →
      (deckLoyalty p gcol db).data ≠ [] ∧ deckEligibleUsers p gcol db < 10) ∧
    ((deckLoyalty p gcol db).data.length = (deckLoyaltyRows p gcol db).length) ∧
    (deckLoyaltyRows p gcol db ≠ [] →
      (deckLoyalty p gcol db).trust_level =
        some (deckTrustTier (deckEligibleUsers p gcol db))) := by
  by_cases hrows : (deckLoyaltyRows p gcol db).isEmpty
  · have hnil : deckLoyaltyRows p gcol db = [] := by
      simpa [List.isEmpty_iff] using hrows
    refine ⟨?_, ?_, ?_⟩
    · intro h
      simp [deckLoyalty, hrows] at h
    · simp [deckLoyalty, hrows, hnil]
    · intro h
      exact absurd hnil h
  · have hF : (deckLoyaltyRows p gcol db).isEmpty = false := by
      simpa using hrows
    have hne : deckLoyaltyRows p gcol db ≠ [] := by
      intro hh
      rw [hh] at hF
      simp at hF
    refine ⟨?_, ?_, ?_⟩
    · intro h
      have htrust : (deckLoyalty p gcol db).trust_level =
          some (deckTrustTier (deckEligibleUsers p gcol db)) := by
        simp [deckLoyalty, hF]
      rw [htrust] at h
      have htier : deckTrustTier (deckEligibleUsers p gcol db) = "SUPPRESSED" :=
        Option.some_injective _ h
      constructor
      · simp [deckLoyalty, hF, hne]
      · by_contra hge
        push_neg at hge
        rw [deckTrustTier, if_neg (by omega)] at htier
        split_ifs at htier <;> simp_all
    · simp [deckLoyalty, hF]
    · intro _
      simp [deckLoyalty, hF]

/-- Claim C6 (witness): amended statement instantiated on the concrete
one-user database (verdict SUPPRESSED, rows still present). -/
theorem deck_loyalty_trust_amended_witness :
    (deckLoyalty pDeck gL1 dbDeck).data ≠ [] ∧
      deckEligibleUsers pDeck gL1 dbDeck < 10 :=
  (deck_loyalty_trust_amended pDeck gL1 dbDeck).1
    (by with_unfolding_all decide)

/-! ### Claim theorems: window validation (C8) -/

/-- Claim C8 (counterexample): a request whose parsed `start` (month 2) is
strictly after its `end` (month 1) — an empty window — passes validation
and the capture metric computes an ordinary (empty-data) result instead of
failing with an InvalidWindow error. -/
theorem empty_window_accepted_cex :
    captureEndpoint none 5 noPath gL1 allPeers [] reqBadWindow = .ok [] ∧
    CalDate.lt ⟨1, 1⟩ ⟨2, 1⟩ = true := by
  constructor
  · with_unfolding_all rfl
  · decide

/-- Claim C8 (amended): `parseFilters` validation is presence-only — the
endpoint errors exactly when `start`, `end` or `issuer_ruc` is missing or
unparseable, and never compares `start` with `end`: any request with all
three present succeeds, empty window included. -/
theorem capture_validation_amended (reconcile : Option Bool) (k : Nat)
    (path : PathFilter) (gcol : Line → Option String)
    (peerWhere : Line → Bool) (db : List Line) (r : ReqFilters) :
    (captureEndpoint reconcile k path gcol peerWhere db r).isOk =
      (r.start.isSome && r.endD.isSome && r.issuer_ruc.isSome) := by
  rcases r with ⟨s, e, i, c⟩
  cases s <;> cases e <;> cases i <;>
    simp [captureEndpoint, filtersValid, invalidFields, Except.isOk, Except.toBool]

/-! ### Claim theorems: reconciliation tri-state (C10) -/

/-- Claim C10: the reconciliation predicate
`($n IS NULL OR COALESCE(r.reconcile_ok, false) = $n)` shared by every
embedded query treats a line without a reconciliation record as
`reconcile_ok = false`: a `null` filter admits all three states, filter
`true` admits only lines with a matching record marked true, and filter
`false` admits exactly the lines with a false record or no record. -/
theorem reconcile_tristate_filter :
    (∀ rec : Option Bool, reconcilePass none rec = true) ∧
    (∀ rec : Option Bool,
      (reconcilePass (some true) rec = true ↔ rec = some true)) ∧
    (∀ rec : Option Bool,
      (reconcilePass (some false) rec = true ↔
        (rec = none ∨ rec = some false))) := by
  refine ⟨fun rec => rfl, fun rec => ?_, fun rec => ?_⟩ <;>
    rcases rec with _ | b
  · simp [reconcilePass]
  · cases b <;> simp [reconcilePass]
  · simp [reconcilePass]
  · cases b <;> simp [reconcilePass]

/-! ### Claim theorems: dimension normalization (C9) -/

/-- Claim C9 (amended): a missing (NULL) category value is normalized to
UNKNOWN by `COALESCE`, but a blank category value is kept verbatim (see the
counterexample); brand values are normalized for both NULL and blank (via
`NULLIF(TRIM(…), '')`); and a line with a missing grouping value is not
dropped — it contributes an UNKNOWN group to the capture output. -/
theorem dim_normalization_amended :
    (normCat none = "UNKNOWN") ∧
    (∀ s : String, normCat (some s) = s) ∧
    (brandNorm none = "UNKNOWN") ∧
    (∀ s : String, sqlTrim s = "" → brandNorm (some s) = "UNKNOWN") ∧
    (∀ s : String, sqlTrim s ≠ "" → brandNorm (some s) = sqlTrim s) ∧
    (∀ (p : CaptureParams) (gcol : Line → Option String)
      (peerWhere : Line → Bool) (db : List Line) (l : Line),
      l ∈ capturePeerLines p peerWhere db → gcol l = none →
      "UNKNOWN" ∈ (captureGrouped p gcol peerWhere db).map
        (·.category_value)) := by
  refine ⟨rfl, fun s => rfl, rfl, ?_, ?_, ?_⟩
  · intro s h
    simp [brandNorm, h]
  · intro s h
    simp [brandNorm, h]
  · intro p gcol peerWhere db l hl hnone
    have hkeyd : (l.user_id, normCat (gcol l), l.issuer_ruc) ∈
        ((capturePeerLines p peerWhere db).map fun x =>
          (x.user_id, normCat (gcol x), x.issuer_ruc)).dedup :=
      List.mem_dedup.mpr (List.mem_map_of_mem _ hl)
    have hps : ∃ r ∈ capturePeerSpend p gcol peerWhere db,
        r.category_value = normCat (gcol l) := by
      simp only [capturePeerSpend, List.mem_map]
      exact ⟨_, ⟨_, hkeyd, rfl⟩, rfl⟩
    obtain ⟨r, hr, hcat⟩ := hps
    have hcmem : r.category_value ∈ (capturePeerSpend p gcol peerWhere db).map
        (·.category_value) := List.mem_map_of_mem _ hr
    rw [hcat, hnone] at hcmem
    have hcatd : "UNKNOWN" ∈ ((capturePeerSpend p gcol peerWhere db).map
        (·.category_value)).dedup := by
      rw [List.mem_dedup]
      simpa [normCat] using hcmem
    have hgr : captureGroupedRow p.issuer_ruc
        (capturePeerSpend p gcol peerWhere db) "UNKNOWN" ∈
        captureGrouped p gcol peerWhere db := by
      simp only [captureGrouped, List.mem_map]
      exact ⟨_, hcatd, rfl⟩
    simpa using List.mem_map_of_mem (·.category_value) hgr

/-- Claim C9 (witness): the brand normalizations evaluated on concrete
strings, and the UNKNOWN group present for a concrete NULL-category line. -/
theorem dim_normalization_amended_witness :
    brandNorm (some " ") = "UNKNOWN" ∧ brandNorm (some " A ") = "A" ∧
    "UNKNOWN" ∈ (captureGrouped pUnknownK5 gL1 allPeers dbUnknownOnly).map
      (·.category_value) := by
  refine ⟨?_, ?_, ?_⟩
  · exact dim_normalization_amended.2.2.2.1 " " (by decide)
  · have h := dim_normalization_amended.2.2.2.2.1 " A " (by decide)
    rwa [show sqlTrim " A " = "A" by decide] at h
  · exact dim_normalization_amended.2.2.2.2.2 pUnknownK5 gL1 allPeers
      dbUnknownOnly ⟨1, 1, ⟨0, 1⟩, "X", none, none, none, none, none, 10, none⟩
      (by with_unfolding_all decide) rfl

end Radiance
